import Mathlib

/-!
# Sugarshop snapshot controller

A shallow embedding of `controllers/sugarshop_controller.go` and
`api/v1/sugarshop_types.go`, and the properties of `SugarshopReconciler.Reconcile`
proved over it.

Go strings are Lean `String`s, Go `error` values are `Option Error` (`none` is
`nil`), the clock (`time.Now().Unix()`) is an `Int` handed to the function, and the
embedded `client.Client` is a record of state-passing operations.
-/

namespace Controllers

/-! ## `strconv.FormatInt(i, 10)` -/

/-- The byte `'0' + d` that `strconv` writes for the decimal digit `d`. -/
def digitByte (d : Nat) : Char := Char.ofNat ('0'.toNat + d)

/-- The loop of `strconv.formatBits` for base 10:
`for u >= 10 { q := u / 10; a[i] = '0' + u - q*10; u = q }; a[i] = '0' + u`.
The buffer `a` is filled from the right, so it is the list of bytes written so far.
The first argument bounds the number of iterations. -/
def formatBitsLoop : Nat → Nat → List Char → List Char
  | 0, u, a => digitByte u :: a
  | fuel + 1, u, a =>
    if 10 ≤ u then formatBitsLoop fuel (u / 10) (digitByte (u % 10) :: a)
    else digitByte u :: a

/-- The bytes `strconv.formatBits` produces for the magnitude `u` in base 10.
The loop divides `u` by ten each round, so `u` rounds are more than enough
(`formatBits_eq_decimalDigits`). -/
def formatBits (u : Nat) : List Char := formatBitsLoop u u []

/-- `strconv.FormatInt(i, 10)`: a minus sign for a negative `i`, then the digits of
its magnitude. -/
def FormatInt (i : Int) : String :=
  if i < 0 then String.mk ('-' :: formatBits i.natAbs) else String.mk (formatBits i.natAbs)

/-- The decimal numeral of `u`, most significant digit first, by the usual recursion:
the reference `formatBits` is compared with. -/
def decimalDigits (u : Nat) : List Char :=
  if u < 10 then [digitByte u] else decimalDigits (u / 10) ++ [digitByte (u % 10)]
decreasing_by omega

/-! ## Generated names (controller, lines 82 and 83) -/

/-- `newPvName`, line 82, with `now` the value of `time.Now().Unix()` read there. -/
def newPvName (now : Int) (SourceVolumeName : String) : String :=
  "sugar-snapshot-pv-" ++ FormatInt now ++ "0" ++ SourceVolumeName

/-- `newPvcName`, line 83, with `now` the value of `time.Now().Unix()` read there. -/
def newPvcName (now : Int) (SourceClaimName : String) : String :=
  "sugar-snapshot-pvc-" ++ FormatInt now ++ "0" ++ SourceClaimName

/-! ## API types (`api/v1/sugarshop_types.go`) and the Kubernetes types the controller fills in

Only the fields the controller reads or writes are kept. Field defaults are the Go
zero values, so `{}` is the zero value of each struct. -/

/-- `metav1.ObjectMeta`, reduced to the two fields the controller uses. -/
structure ObjectMeta where
  Name : String := ""
  Namespace : String := ""
deriving DecidableEq, Repr

/-- `SugarshopSpec`. -/
structure SugarshopSpec where
  SourceVolumeName : String := ""
  SourceClaimName : String := ""
  Namespace : String := ""
  HostPath : String := ""
deriving DecidableEq, Repr

/-- `SugarshopStatus`. -/
structure SugarshopStatus where
  Complete : Bool := false
  NewVolumeName : String := ""
  NewClaimName : String := ""
deriving DecidableEq, Repr

/-- `Sugarshop`: the request object. `ObjectMeta` is embedded in Go, so `snapshot.Name`
there is `snapshot.ObjectMeta.Name` here. -/
structure Sugarshop where
  ObjectMeta : ObjectMeta := {}
  Spec : SugarshopSpec := {}
  Status : SugarshopStatus := {}
deriving DecidableEq, Repr

/-- `types.NamespacedName`. -/
structure NamespacedName where
  Namespace : String := ""
  Name : String := ""
deriving DecidableEq, Repr

/-- `ctrl.Request`; `NamespacedName` is embedded in Go, so `req.Namespace` there is
`req.NamespacedName.Namespace` here. -/
structure Request where
  NamespacedName : NamespacedName := {}
deriving DecidableEq, Repr

/-- `ctrl.Result`; `RequeueAfter` is a `time.Duration` in nanoseconds. -/
structure Result where
  Requeue : Bool := false
  RequeueAfter : Int := 0
deriving DecidableEq, Repr

/-- A non-nil Go `error`, identified by its message. -/
structure Error where
  msg : String
deriving DecidableEq, Repr

/-- `corev1.ResourceList`: resource name to quantity, both kept as written. -/
abbrev ResourceList := List (String × String)

/-- `corev1.HostPathVolumeSource`. -/
structure HostPathVolumeSource where
  Path : String := ""
deriving DecidableEq, Repr

/-- `corev1.PersistentVolumeSource`. -/
structure PersistentVolumeSource where
  HostPath : Option HostPathVolumeSource := none
deriving DecidableEq, Repr

/-- `corev1.PersistentVolumeSpec`. -/
structure PersistentVolumeSpec where
  StorageClassName : String := ""
  AccessModes : List String := []
  Capacity : ResourceList := []
  PersistentVolumeSource : PersistentVolumeSource := {}
deriving DecidableEq, Repr

/-- `corev1.PersistentVolume`. -/
structure PersistentVolume where
  ObjectMeta : ObjectMeta := {}
  Spec : PersistentVolumeSpec := {}
deriving DecidableEq, Repr

/-- `corev1.ResourceRequirements`. -/
structure ResourceRequirements where
  Requests : ResourceList := []
deriving DecidableEq, Repr

/-- `corev1.PersistentVolumeClaimSpec`. -/
structure PersistentVolumeClaimSpec where
  StorageClassName : Option String := none
  VolumeName : String := ""
  AccessModes : List String := []
  Resources : ResourceRequirements := {}
deriving DecidableEq, Repr

/-- `corev1.PersistentVolumeClaim`. -/
structure PersistentVolumeClaim where
  ObjectMeta : ObjectMeta := {}
  Spec : PersistentVolumeClaimSpec := {}
deriving DecidableEq, Repr

/-- `corev1.PersistentVolumeClaimVolumeSource`. -/
structure PersistentVolumeClaimVolumeSource where
  ClaimName : String := ""
deriving DecidableEq, Repr

/-- `corev1.VolumeSource`. -/
structure VolumeSource where
  PersistentVolumeClaim : Option PersistentVolumeClaimVolumeSource := none
deriving DecidableEq, Repr

/-- `corev1.Volume`. -/
structure Volume where
  Name : String := ""
  VolumeSource : VolumeSource := {}
deriving DecidableEq, Repr

/-- `corev1.VolumeMount`. -/
structure VolumeMount where
  Name : String := ""
  MountPath : String := ""
deriving DecidableEq, Repr

/-- `corev1.Container`. -/
structure Container where
  Name : String := ""
  Image : String := ""
  Command : List String := []
  VolumeMounts : List VolumeMount := []
deriving DecidableEq, Repr

/-- `corev1.PodSpec`. -/
structure PodSpec where
  RestartPolicy : String := ""
  Volumes : List Volume := []
  Containers : List Container := []
deriving DecidableEq, Repr

/-- `corev1.Pod`. -/
structure Pod where
  ObjectMeta : ObjectMeta := {}
  Spec : PodSpec := {}
deriving DecidableEq, Repr

/-- `corev1.ReadWriteOnce`. -/
def ReadWriteOnce : String := "ReadWriteOnce"

/-- `corev1.ResourceStorage`. -/
def ResourceStorage : String := "storage"

/-- A `client.Object` of one of the kinds the controller handles. -/
inductive Object where
  | sugarshop (o : Sugarshop)
  | persistentVolume (o : PersistentVolume)
  | persistentVolumeClaim (o : PersistentVolumeClaim)
  | pod (o : Pod)
deriving DecidableEq, Repr

/-- The metadata of an object. -/
def Object.meta : Object → ObjectMeta
  | .sugarshop o => o.ObjectMeta
  | .persistentVolume o => o.ObjectMeta
  | .persistentVolumeClaim o => o.ObjectMeta
  | .pod o => o.ObjectMeta

/-! ## The client

`SugarshopReconciler` embeds `client.Client`. Each operation is a function from the
state of the world before the call to the outcome and the state after it. `Get` fills
the object it is handed and returns an error, so the two typed reads return the object
as the call left it together with the error. -/

/-- The operations of `client.Client` over a world of type `σ`: `Get` into a
`*Sugarshop`, `Get` into a `*corev1.Pod`, `Create` and `Delete`. -/
structure Client (σ : Type) where
  GetSugarshop : σ → NamespacedName → (Sugarshop × Option Error) × σ
  GetPod : σ → NamespacedName → (Pod × Option Error) × σ
  Create : σ → Object → Option Error × σ
  Delete : σ → Object → Option Error × σ

/-! ## `SugarshopReconciler.Reconcile` -/

/-- `newPersistentVol`, lines 86 to 103. -/
def newPersistentVol (req : Request) (snapshot : Sugarshop) (newPvName : String) :
    PersistentVolume :=
  { ObjectMeta := { Name := newPvName, Namespace := req.NamespacedName.Namespace }
    Spec :=
      { StorageClassName := "manual"
        AccessModes := [ReadWriteOnce]
        Capacity := [(ResourceStorage, "1Gi")]
        PersistentVolumeSource := { HostPath := some { Path := snapshot.Spec.HostPath } } } }

/-- `newPersistentVolClaim`, lines 113 to 131. -/
def newPersistentVolClaim (req : Request) (newPvName newPvcName : String) :
    PersistentVolumeClaim :=
  let manualStorageClass := "manual"
  { ObjectMeta := { Name := newPvcName, Namespace := req.NamespacedName.Namespace }
    Spec :=
      { StorageClassName := some manualStorageClass
        VolumeName := newPvName
        AccessModes := [ReadWriteOnce]
        Resources := { Requests := [(ResourceStorage, "1Gi")] } } }

/-- `snapshotCreatorPod`, lines 143 to 190. -/
def snapshotCreatorPod (req : Request) (snapshot : Sugarshop) (newPvcName : String) : Pod :=
  { ObjectMeta := { Name := "snapshot-creator", Namespace := req.NamespacedName.Namespace }
    Spec :=
      { RestartPolicy := "Never"
        Volumes :=
          [ { Name := "sugar-snapshot-" ++ snapshot.Spec.SourceClaimName
              VolumeSource :=
                { PersistentVolumeClaim := some { ClaimName := snapshot.Spec.SourceClaimName } } },
            { Name := "sugar-snapshot-" ++ newPvcName
              VolumeSource := { PersistentVolumeClaim := some { ClaimName := newPvcName } } } ]
        Containers :=
          [ { Name := "busybox"
              Image := "ubuntu"
              Command := ["/bin/sh", "-c", "cp /tmp/source/test.file /tmp/dest/test.file"]
              VolumeMounts :=
                [ { Name := "sugar-snapshot-" ++ snapshot.Spec.SourceClaimName
                    MountPath := "/tmp/source" },
                  { Name := "sugar-snapshot-" ++ newPvcName, MountPath := "/tmp/dest" } ] } ] } }

/-- `SugarshopReconciler.Reconcile`, lines 58 to 200. `r` is the embedded client, `s`
the world the pass starts in, `now₁` and `now₂` the values `time.Now().Unix()` returns
on lines 82 and 83. The result is the returned pair and the world the pass leaves.
Calls to the logger do not affect either and are left out. `len(snapshot.Name) == 0`
is rendered with `String.length`, which is zero exactly when the byte length is. -/
def Reconcile {σ : Type} (r : Client σ) (now₁ now₂ : Int) (req : Request) (s : σ) :
    (Result × Option Error) × σ :=
  let got := r.GetSugarshop s req.NamespacedName
  let snapshot := got.1.1
  let snapshotReadErr := got.1.2
  let s := got.2
  if snapshotReadErr ≠ none ∨ snapshot.ObjectMeta.Name.length = 0 then
    (({}, snapshotReadErr), s)
  else
    let gotCreator :=
      r.GetPod s { Name := "snapshot-creator", Namespace := req.NamespacedName.Namespace }
    let snapshotCreatorReadErr := gotCreator.1.2
    let s := gotCreator.2
    if snapshotCreatorReadErr = none then
      (({}, snapshotCreatorReadErr), s)
    else
      let newPvName := newPvName now₁ snapshot.Spec.SourceVolumeName
      let newPvcName := newPvcName now₂ snapshot.Spec.SourceClaimName
      let createdPv := r.Create s (.persistentVolume (newPersistentVol req snapshot newPvName))
      let pvCreateErr := createdPv.1
      let s := createdPv.2
      if pvCreateErr ≠ none then
        (({}, pvCreateErr), s)
      else
        let createdPvc :=
          r.Create s (.persistentVolumeClaim (newPersistentVolClaim req newPvName newPvcName))
        let pvcCreateErr := createdPvc.1
        let s := createdPvc.2
        if pvcCreateErr ≠ none then
          (({}, pvcCreateErr), s)
        else
          let createdPod := r.Create s (.pod (snapshotCreatorPod req snapshot newPvcName))
          let podCreateErr := createdPod.1
          let s := createdPod.2
          if podCreateErr ≠ none then
            (({}, podCreateErr), s)
          else
            (({}, none), s)

/-! ## Observing the calls a pass makes -/

/-- One call on the client together with what it returned. -/
inductive Call where
  | GetSugarshop (key : NamespacedName) (obj : Sugarshop) (err : Option Error)
  | GetPod (key : NamespacedName) (obj : Pod) (err : Option Error)
  | Create (obj : Object) (err : Option Error)
  | Delete (obj : Object) (err : Option Error)
deriving DecidableEq, Repr

/-- The client `c` with a log: every call is answered by `c` and appended, with its
answer, to the log. -/
def traced {σ : Type} (c : Client σ) : Client (σ × List Call) where
  GetSugarshop := fun st key =>
    let got := c.GetSugarshop st.1 key
    (got.1, (got.2, st.2 ++ [Call.GetSugarshop key got.1.1 got.1.2]))
  GetPod := fun st key =>
    let got := c.GetPod st.1 key
    (got.1, (got.2, st.2 ++ [Call.GetPod key got.1.1 got.1.2]))
  Create := fun st obj =>
    let done := c.Create st.1 obj
    (done.1, (done.2, st.2 ++ [Call.Create obj done.1]))
  Delete := fun st obj =>
    let done := c.Delete st.1 obj
    (done.1, (done.2, st.2 ++ [Call.Delete obj done.1]))

/-- The `Create` calls in a log, in order: the object handed over and the error
returned. -/
def createResultsIn (log : List Call) : List (Object × Option Error) :=
  log.filterMap fun
    | .Create obj err => some (obj, err)
    | _ => none

/-- The objects of the `Create` calls in a log, in order. -/
def createsIn (log : List Call) : List Object :=
  (createResultsIn log).map Prod.fst

/-- The objects of the `Delete` calls in a log, in order. -/
def deletesIn (log : List Call) : List Object :=
  log.filterMap fun
    | .Delete obj _ => some obj
    | _ => none

/-- The key of the lookup on lines 72 to 74. -/
def creatorKey (req : Request) : NamespacedName :=
  { Name := "snapshot-creator", Namespace := req.NamespacedName.Namespace }

/-- What the fetch of the request object on line 63 returns in world `s`: the object
and the error. -/
def fetched {σ : Type} (c : Client σ) (req : Request) (s : σ) : Sugarshop × Option Error :=
  (c.GetSugarshop s req.NamespacedName).1

/-- The error the lookup of the pod named "snapshot-creator" on lines 72 to 74 returns
when it is made right after the fetch of the request object in world `s`. -/
def creatorLookupErr {σ : Type} (c : Client σ) (req : Request) (s : σ) : Option Error :=
  (c.GetPod (c.GetSugarshop s req.NamespacedName).2 (creatorKey req)).1.2

/-- The claim names of the volumes of pod `p` that one of its containers mounts at
`path`: a mount refers to the volume of the pod that carries the same name. -/
def claimsMountedAt (p : Pod) (path : String) : List String :=
  p.Spec.Containers.flatMap fun ctr =>
    (ctr.VolumeMounts.filter fun m => m.MountPath = path).flatMap fun m =>
      (p.Spec.Volumes.filter fun v => v.Name = m.Name).filterMap fun v =>
        v.VolumeSource.PersistentVolumeClaim.map fun src => src.ClaimName

/-- The claim names the volumes of pod `p` refer to, in order. -/
def volumeClaims (p : Pod) : List (Option String) :=
  p.Spec.Volumes.map fun v => v.VolumeSource.PersistentVolumeClaim.map fun src => src.ClaimName

/-- The calls one pass of `Reconcile` makes on `c`, started in world `s`. -/
def callsOf {σ : Type} (c : Client σ) (now₁ now₂ : Int) (req : Request) (s : σ) : List Call :=
  (Reconcile (traced c) now₁ now₂ req (s, [])).2.2

/-- The error one pass of `Reconcile` returns. -/
def errorOf {σ : Type} (c : Client σ) (now₁ now₂ : Int) (req : Request) (s : σ) :
    Option Error :=
  (Reconcile (traced c) now₁ now₂ req (s, [])).1.2

/-- The world one pass of `Reconcile` leaves. -/
def worldAfter {σ : Type} (c : Client σ) (now₁ now₂ : Int) (req : Request) (s : σ) : σ :=
  (Reconcile (traced c) now₁ now₂ req (s, [])).2.1

/-! ## A store behind the client

The world is the list of objects present. `Get` succeeds exactly when an object of the
asked kind, name and namespace is present, `Create` appends the object unless the
server turns the call down, `Delete` removes the objects with the key of its argument. -/

/-- The kinds of object in the store. -/
inductive Kind where
  | Sugarshop
  | PersistentVolume
  | PersistentVolumeClaim
  | Pod
deriving DecidableEq, Repr

/-- The kind of an object. -/
def Object.kind : Object → Kind
  | .sugarshop _ => .Sugarshop
  | .persistentVolume _ => .PersistentVolume
  | .persistentVolumeClaim _ => .PersistentVolumeClaim
  | .pod _ => .Pod

/-- The objects present. -/
abbrev Store := List Object

/-- Whether `o` is of kind `k` and carries the name and namespace of `key`. -/
def Object.hasKey (k : Kind) (key : NamespacedName) (o : Object) : Bool :=
  decide (o.kind = k ∧ o.meta.Name = key.Name ∧ o.meta.Namespace = key.Namespace)

/-- The error of a `Get` or `Delete` that finds nothing. -/
def notFound : Error := { msg := "not found" }

/-- The client over the store. `rejects s obj` is the error with which the server turns
down the creation of `obj` in store `s`, or `none` when it accepts it; with
`fun _ _ => none` every `Create` inserts its object. -/
def storeClient (rejects : Store → Object → Option Error) : Client Store where
  GetSugarshop := fun s key =>
    match s.find? (Object.hasKey .Sugarshop key) with
    | some (.sugarshop o) => ((o, none), s)
    | _ => (({}, some notFound), s)
  GetPod := fun s key =>
    match s.find? (Object.hasKey .Pod key) with
    | some (.pod o) => ((o, none), s)
    | _ => (({}, some notFound), s)
  Create := fun s obj =>
    match rejects s obj with
    | some e => (some e, s)
    | none => (none, s ++ [obj])
  Delete := fun s obj =>
    let key : NamespacedName :=
      { Name := obj.meta.Name, Namespace := obj.meta.Namespace }
    if s.any (Object.hasKey obj.kind key) then
      (none, s.filter fun o => !Object.hasKey obj.kind key o)
    else (some notFound, s)

/-- The server that accepts every `Create`. -/
def acceptAll : Store → Object → Option Error := fun _ _ => none

/-- One pass of `Reconcile`: the request it is invoked for and the two clock readings. -/
structure Pass where
  req : Request
  now₁ : Int
  now₂ : Int
deriving DecidableEq, Repr

/-- The store one pass leaves. -/
def runPass (rejects : Store → Object → Option Error) (s : Store) (p : Pass) : Store :=
  worldAfter (storeClient rejects) p.now₁ p.now₂ p.req s

/-- The store a sequence of passes, run one after another, leaves. -/
def runPasses (rejects : Store → Object → Option Error) (s : Store) (ps : List Pass) : Store :=
  ps.foldl (runPass rejects) s

/-- The objects pass `p` creates when started in store `s`. -/
def passCreates (rejects : Store → Object → Option Error) (s : Store) (p : Pass) :
    List Object :=
  createsIn (callsOf (storeClient rejects) p.now₁ p.now₂ p.req s)

/-- Pass `p`, started in store `s`, completes all three creates: it issues three and
every one of them is accepted. -/
def completesProvisioning (rejects : Store → Object → Option Error) (s : Store) (p : Pass) :
    Prop :=
  (createResultsIn (callsOf (storeClient rejects) p.now₁ p.now₂ p.req s)).map Prod.snd
    = [none, none, none]

/-- The number of pods named "snapshot-creator" in namespace `ns` in store `s`. -/
def sentinelCount (ns : String) (s : Store) : Nat :=
  s.countP (Object.hasKey .Pod { Name := "snapshot-creator", Namespace := ns })

/-! ## Fail-fast creation, as the specification words it -/

/-- The world the pass is in once both lookups have been made. -/
def worldAfterLookups {σ : Type} (c : Client σ) (req : Request) (s : σ) : σ :=
  (c.GetPod (c.GetSugarshop s req.NamespacedName).2 (creatorKey req)).2

/-- The three objects a pass sets out to create, in the order of the source: the
volume (line 105), the claim (line 133), the worker (line 192). -/
def planned (req : Request) (snapshot : Sugarshop) (now₁ now₂ : Int) : List Object :=
  [ .persistentVolume
      (newPersistentVol req snapshot (newPvName now₁ snapshot.Spec.SourceVolumeName)),
    .persistentVolumeClaim
      (newPersistentVolClaim req (newPvName now₁ snapshot.Spec.SourceVolumeName)
        (newPvcName now₂ snapshot.Spec.SourceClaimName)),
    .pod (snapshotCreatorPod req snapshot (newPvcName now₂ snapshot.Spec.SourceClaimName)) ]

/-- Fail-fast creation without rollback, following the specification and not the
source: the objects are created in order, the first create that fails ends the run and
its error is the outcome, nothing is undone. The result is the creates issued with the
error of each, the outcome, and the world left. -/
def createUntilFailure {σ : Type} (c : Client σ) :
    σ → List Object → (List (Object × Option Error) × Option Error) × σ
  | s, [] => (([], none), s)
  | s, obj :: rest =>
    if (c.Create s obj).1 ≠ none then
      (([(obj, (c.Create s obj).1)], (c.Create s obj).1), (c.Create s obj).2)
    else
      (((obj, none) :: (createUntilFailure c (c.Create s obj).2 rest).1.1,
        (createUntilFailure c (c.Create s obj).2 rest).1.2),
        (createUntilFailure c (c.Create s obj).2 rest).2)

/-- The objects of the creates in `results` that succeeded, in order. -/
def accepted (results : List (Object × Option Error)) : List Object :=
  (results.filter fun r => r.2.isNone).map Prod.fst

/-- The client `c` with the spec field `namespace` of every request object it fetches
overwritten with `ns`; everything else it answers as `c` does. -/
def withSpecNamespace {σ : Type} (ns : String) (c : Client σ) : Client σ where
  GetSugarshop := fun s key =>
    (({ (c.GetSugarshop s key).1.1 with
          Spec := { (c.GetSugarshop s key).1.1.Spec with Namespace := ns } },
      (c.GetSugarshop s key).1.2),
      (c.GetSugarshop s key).2)
  GetPod := c.GetPod
  Create := c.Create
  Delete := c.Delete

/-! ## Concrete scenarios -/

/-- The request object of the scenario of the specification. -/
def scenarioShop : Sugarshop :=
  { ObjectMeta := { Name := "snap", Namespace := "ns1" }
    Spec :=
      { SourceVolumeName := "data-vol"
        SourceClaimName := "data-claim"
        Namespace := "ns1"
        HostPath := "/mnt/data" } }

/-- The key under which `scenarioShop` is stored. -/
def scenarioRequest : Request := { NamespacedName := { Namespace := "ns1", Name := "snap" } }

/-- A store that holds the request object and no worker. -/
def scenarioStore : Store := [.sugarshop scenarioShop]

/-- A pass for the scenario request at clock reading 1700000000. -/
def scenarioPass : Pass := { req := scenarioRequest, now₁ := 1700000000, now₂ := 1700000000 }

/-- A worker named "snapshot-creator" already present in namespace "ns1". -/
def runningCreator : Pod := { ObjectMeta := { Name := "snapshot-creator", Namespace := "ns1" } }

/-- A store that holds the request object and a worker already. -/
def busyStore : Store := [.sugarshop scenarioShop, .pod runningCreator]

/-- A request object stored in "ns1" whose spec field `namespace` names another
namespace. -/
def strayShop : Sugarshop :=
  { ObjectMeta := { Name := "snap", Namespace := "ns1" }
    Spec :=
      { SourceVolumeName := "data-vol"
        SourceClaimName := "data-claim"
        Namespace := "elsewhere"
        HostPath := "/mnt/data" } }

/-- A request object without a name. -/
def namelessShop : Sugarshop := { ObjectMeta := { Name := "", Namespace := "ns1" } }

/-- The key that finds `namelessShop`. -/
def namelessRequest : Request := { NamespacedName := { Namespace := "ns1", Name := "" } }

/-- A server that turns down every claim and accepts everything else. -/
def rejectClaims : Store → Object → Option Error := fun _ obj =>
  if obj.kind = .PersistentVolumeClaim then some { msg := "claim refused" } else none

/-! ## Decimal formatting lemmas -/

theorem decimalDigits_small {u : Nat} (h : u < 10) : decimalDigits u = [digitByte u] := by
  rw [decimalDigits, if_pos h]

theorem decimalDigits_large {u : Nat} (h : 10 ≤ u) :
    decimalDigits u = decimalDigits (u / 10) ++ [digitByte (u % 10)] := by
  rw [decimalDigits, if_neg (by omega)]

theorem formatBitsLoop_eq (fuel : Nat) :
    ∀ (u : Nat) (a : List Char), u ≤ fuel → formatBitsLoop fuel u a = decimalDigits u ++ a := by
  induction fuel with
  | zero =>
    intro u a hu
    have h0 : u = 0 := by omega
    subst h0
    simp [formatBitsLoop, decimalDigits_small]
  | succ n ih =>
    intro u a hu
    by_cases h : 10 ≤ u
    · have hq : u / 10 ≤ n := by omega
      simp [formatBitsLoop, h, ih _ _ hq, decimalDigits_large h]
    · simp [formatBitsLoop, h, decimalDigits_small (by omega : u < 10)]

theorem formatBits_eq_decimalDigits (u : Nat) : formatBits u = decimalDigits u := by
  simp [formatBits, formatBitsLoop_eq u u [] (le_refl u)]

theorem digitByte_injOn : ∀ a < 10, ∀ b < 10, digitByte a = digitByte b → a = b := by
  decide

theorem digitByte_ne_minus : ∀ a < 10, digitByte a ≠ '-' := by
  decide

theorem decimalDigits_ne_nil (u : Nat) : decimalDigits u ≠ [] := by
  by_cases h : u < 10
  · simp [decimalDigits_small h]
  · simp [decimalDigits_large (by omega : 10 ≤ u)]

theorem decimalDigits_head_ne_minus (u : Nat) : ∀ l, decimalDigits u ≠ '-' :: l := by
  induction u using Nat.strong_induction_on with
  | _ u ih =>
    intro l hl
    by_cases h : u < 10
    · rw [decimalDigits_small h] at hl
      exact digitByte_ne_minus u h (List.cons.inj hl).1
    · rw [decimalDigits_large (by omega : 10 ≤ u)] at hl
      obtain ⟨c, r, hcr⟩ := List.exists_cons_of_ne_nil (decimalDigits_ne_nil (u / 10))
      rw [hcr] at hl
      have hc : c = '-' := (List.cons.inj hl).1
      exact ih (u / 10) (by omega) r (hc ▸ hcr)

theorem decimalDigits_injective : ∀ u v : Nat, decimalDigits u = decimalDigits v → u = v := by
  intro u
  induction u using Nat.strong_induction_on with
  | _ u ih =>
    intro v huv
    by_cases hu : u < 10 <;> by_cases hv : v < 10
    · rw [decimalDigits_small hu, decimalDigits_small hv] at huv
      exact digitByte_injOn u hu v hv (List.cons.inj huv).1
    · rw [decimalDigits_small hu, decimalDigits_large (by omega : 10 ≤ v)] at huv
      have hlen := congrArg List.length huv
      have hpos := List.length_pos.mpr (decimalDigits_ne_nil (v / 10))
      simp only [List.length_append, List.length_singleton, List.length_cons, List.length_nil]
        at hlen
      omega
    · rw [decimalDigits_large (by omega : 10 ≤ u), decimalDigits_small hv] at huv
      have hlen := congrArg List.length huv
      have hpos := List.length_pos.mpr (decimalDigits_ne_nil (u / 10))
      simp only [List.length_append, List.length_singleton, List.length_cons, List.length_nil]
        at hlen
      omega
    · rw [decimalDigits_large (by omega : 10 ≤ u), decimalDigits_large (by omega : 10 ≤ v)] at huv
      have hsplit := List.append_inj' huv rfl
      have hq : u / 10 = v / 10 := ih (u / 10) (by omega) (v / 10) hsplit.1
      have hr : u % 10 = v % 10 :=
        digitByte_injOn _ (Nat.mod_lt _ (by decide)) _ (Nat.mod_lt _ (by decide))
          (List.cons.inj hsplit.2).1
      omega

theorem FormatInt_injective (i j : Int) (h : FormatInt i = FormatInt j) : i = j := by
  unfold FormatInt at h
  simp only [formatBits_eq_decimalDigits] at h
  by_cases hi : i < 0 <;> by_cases hj : j < 0
  · simp only [hi, hj, if_true] at h
    have := decimalDigits_injective _ _ (List.cons.inj (congrArg String.data h)).2
    omega
  · simp only [hi, hj, if_true, if_false] at h
    exact absurd (congrArg String.data h).symm (decimalDigits_head_ne_minus _ _)
  · simp only [hi, hj, if_true, if_false] at h
    exact absurd (congrArg String.data h) (decimalDigits_head_ne_minus _ _)
  · simp only [hi, hj, if_false] at h
    have := decimalDigits_injective _ _ (congrArg String.data h)
    omega

/-! ## Generated names -/

theorem newPvName_data (t : Int) (v : String) :
    (newPvName t v).data = "sugar-snapshot-pv-".data ++ ((FormatInt t).data ++ ('0' :: v.data)) := by
  simp [newPvName, String.data_append]

theorem newPvcName_data (t : Int) (c : String) :
    (newPvcName t c).data =
      "sugar-snapshot-pvc-".data ++ ((FormatInt t).data ++ ('0' :: c.data)) := by
  simp [newPvcName, String.data_append]

theorem FormatInt_data (t : Int) :
    (FormatInt t).data =
      if t < 0 then '-' :: decimalDigits t.natAbs else decimalDigits t.natAbs := by
  unfold FormatInt
  split_ifs <;> simp [formatBits_eq_decimalDigits]

/-- C4: the generated volume name is "sugar-snapshot-pv-", the decimal numeral of the
clock reading, "0" and the source volume name; the generated claim name is
"sugar-snapshot-pvc-", the decimal numeral, "0" and the source claim name. Each begins
with its prefix and ends with its source name, and the scenario of the specification
gives the two names it lists. -/
theorem generated_names_shape (v c : String) (t : Int) :
    newPvName t v = "sugar-snapshot-pv-" ++ FormatInt t ++ "0" ++ v ∧
    newPvcName t c = "sugar-snapshot-pvc-" ++ FormatInt t ++ "0" ++ c ∧
    (FormatInt t).data
      = (if t < 0 then '-' :: decimalDigits t.natAbs else decimalDigits t.natAbs) ∧
    "sugar-snapshot-pv-".data <+: (newPvName t v).data ∧
    v.data <:+ (newPvName t v).data ∧
    "sugar-snapshot-pvc-".data <+: (newPvcName t c).data ∧
    c.data <:+ (newPvcName t c).data ∧
    newPvName 1700000000 "data-vol" = "sugar-snapshot-pv-17000000000data-vol" ∧
    newPvcName 1700000000 "data-claim" = "sugar-snapshot-pvc-17000000000data-claim" := by
  refine ⟨rfl, rfl, FormatInt_data t, ?_, ?_, ?_, ?_, by decide, by decide⟩
  · rw [newPvName_data]
    exact List.prefix_append _ _
  · rw [newPvName_data]
    exact ⟨"sugar-snapshot-pv-".data ++ ((FormatInt t).data ++ ['0']), by simp⟩
  · rw [newPvcName_data]
    exact List.prefix_append _ _
  · rw [newPvcName_data]
    exact ⟨"sugar-snapshot-pvc-".data ++ ((FormatInt t).data ++ ['0']), by simp⟩

/-- C6: for one source name, two different clock readings give different volume names
and different claim names. -/
theorem names_differ_for_same_source (s : String) (t₁ t₂ : Int) (h : t₁ ≠ t₂) :
    newPvName t₁ s ≠ newPvName t₂ s ∧ newPvcName t₁ s ≠ newPvcName t₂ s := by
  constructor
  · intro heq
    have hd := congrArg String.data heq
    rw [newPvName_data, newPvName_data] at hd
    have h1 := List.append_cancel_right (List.append_cancel_left hd)
    exact h (FormatInt_injective _ _ (String.ext h1))
  · intro heq
    have hd := congrArg String.data heq
    rw [newPvcName_data, newPvcName_data] at hd
    have h1 := List.append_cancel_right (List.append_cancel_left hd)
    exact h (FormatInt_injective _ _ (String.ext h1))

theorem names_differ_for_same_source_witness :
    (1700000000 : Int) ≠ 1700000001 ∧
    newPvName 1700000000 "data-vol" ≠ newPvName 1700000001 "data-vol" ∧
    newPvcName 1700000000 "data-vol" ≠ newPvcName 1700000001 "data-vol" :=
  ⟨by decide, names_differ_for_same_source "data-vol" 1700000000 1700000001 (by decide)⟩

/-- C7, as the claim states it, fails: the clock readings 1700000000 and 17000000000
differ, yet with the source names "0x" and "x" they give the same volume name and the
same claim name. -/
theorem names_collide_across_seconds :
    (1700000000 : Int) ≠ 17000000000 ∧
    newPvName 1700000000 "0x" = newPvName 17000000000 "x" ∧
    newPvcName 1700000000 "0x" = newPvcName 17000000000 "x" := by
  decide

/-- C7, amended: two clock readings that differ and whose decimal numerals have the
same length give different volume names and different claim names, whatever the source
names are. -/
theorem names_differ_for_equal_length_readings (t₁ t₂ : Int) (v₁ v₂ c₁ c₂ : String)
    (h : t₁ ≠ t₂) (hlen : (FormatInt t₁).length = (FormatInt t₂).length) :
    newPvName t₁ v₁ ≠ newPvName t₂ v₂ ∧ newPvcName t₁ c₁ ≠ newPvcName t₂ c₂ := by
  have hlen' : (FormatInt t₁).data.length = (FormatInt t₂).data.length := hlen
  constructor
  · intro heq
    have hd := congrArg String.data heq
    rw [newPvName_data, newPvName_data] at hd
    have h1 := (List.append_inj (List.append_cancel_left hd) hlen').1
    exact h (FormatInt_injective _ _ (String.ext h1))
  · intro heq
    have hd := congrArg String.data heq
    rw [newPvcName_data, newPvcName_data] at hd
    have h1 := (List.append_inj (List.append_cancel_left hd) hlen').1
    exact h (FormatInt_injective _ _ (String.ext h1))

theorem names_differ_for_equal_length_readings_witness :
    (1700000000 : Int) ≠ 1700000001 ∧
    (FormatInt 1700000000).length = (FormatInt 1700000001).length ∧
    newPvName 1700000000 "0x" ≠ newPvName 1700000001 "x" ∧
    newPvcName 1700000000 "data-claim" ≠ newPvcName 1700000001 "other-claim" :=
  ⟨by decide, by decide,
    names_differ_for_equal_length_readings 1700000000 1700000001 "0x" "x" "data-claim"
      "other-claim" (by decide) (by decide)⟩

/-! ## One pass of `Reconcile` over any client -/

theorem string_length_eq_zero (s : String) : s.length = 0 ↔ s = "" := by
  constructor
  · intro h
    exact String.ext (List.length_eq_zero.mp h)
  · rintro rfl
    rfl

/-- Logging changes nothing: a pass over the logging client returns what the pass over
the client itself returns and leaves the same world. -/
theorem traced_faithful {σ : Type} (c : Client σ) (now₁ now₂ : Int) (req : Request) (s : σ)
    (log : List Call) :
    (Reconcile (traced c) now₁ now₂ req (s, log)).1 = (Reconcile c now₁ now₂ req s).1 ∧
    (Reconcile (traced c) now₁ now₂ req (s, log)).2.1 = (Reconcile c now₁ now₂ req s).2 := by
  unfold Reconcile
  simp only [traced]
  split_ifs <;> exact ⟨rfl, rfl⟩

theorem createResultsIn_map_create (l : List (Object × Option Error)) :
    createResultsIn (l.map fun r => Call.Create r.1 r.2) = l := by
  induction l with
  | nil => rfl
  | cons r rest ih =>
    simp only [createResultsIn] at ih
    simp [createResultsIn, ih]

theorem deletesIn_map_create (l : List (Object × Option Error)) :
    deletesIn (l.map fun r => Call.Create r.1 r.2) = [] := by
  induction l with
  | nil => rfl
  | cons r rest ih =>
    simp only [deletesIn] at ih
    simp [deletesIn, ih]

/-- Once the two lookups let the pass proceed, the creates `Reconcile` issues, the error
it returns and the world it leaves are those of fail-fast creation of the three
planned objects. -/
theorem reconcile_proceeds {σ : Type} (c : Client σ) (now₁ now₂ : Int) (req : Request) (s : σ)
    (hfetch : (fetched c req s).2 = none)
    (hname : (fetched c req s).1.ObjectMeta.Name ≠ "")
    (hlookup : creatorLookupErr c req s ≠ none) :
    callsOf c now₁ now₂ req s =
      Call.GetSugarshop req.NamespacedName (fetched c req s).1 (fetched c req s).2 ::
      Call.GetPod (creatorKey req)
        (c.GetPod (c.GetSugarshop s req.NamespacedName).2 (creatorKey req)).1.1
        (creatorLookupErr c req s) ::
      (createUntilFailure c (worldAfterLookups c req s)
        (planned req (fetched c req s).1 now₁ now₂)).1.1.map (fun r => Call.Create r.1 r.2)
    ∧ errorOf c now₁ now₂ req s =
      (createUntilFailure c (worldAfterLookups c req s)
        (planned req (fetched c req s).1 now₁ now₂)).1.2
    ∧ worldAfter c now₁ now₂ req s =
      (createUntilFailure c (worldAfterLookups c req s)
        (planned req (fetched c req s).1 now₁ now₂)).2 := by
  have hlen : ¬ (fetched c req s).1.ObjectMeta.Name.length = 0 :=
    fun h => hname ((string_length_eq_zero _).mp h)
  unfold fetched at hfetch hlen
  unfold creatorLookupErr creatorKey at hlookup
  unfold callsOf errorOf worldAfter Reconcile
  simp only [traced, planned, createUntilFailure, worldAfterLookups, fetched, creatorLookupErr,
    creatorKey]
  split_ifs <;> simp_all

theorem reconcile_proceeds_creates {σ : Type} (c : Client σ) (now₁ now₂ : Int) (req : Request)
    (s : σ) (hfetch : (fetched c req s).2 = none)
    (hname : (fetched c req s).1.ObjectMeta.Name ≠ "")
    (hlookup : creatorLookupErr c req s ≠ none) :
    createResultsIn (callsOf c now₁ now₂ req s) =
      (createUntilFailure c (worldAfterLookups c req s)
        (planned req (fetched c req s).1 now₁ now₂)).1.1 := by
  rw [(reconcile_proceeds c now₁ now₂ req s hfetch hname hlookup).1]
  exact createResultsIn_map_create _

theorem reconcile_proceeds_deletes {σ : Type} (c : Client σ) (now₁ now₂ : Int) (req : Request)
    (s : σ) (hfetch : (fetched c req s).2 = none)
    (hname : (fetched c req s).1.ObjectMeta.Name ≠ "")
    (hlookup : creatorLookupErr c req s ≠ none) :
    deletesIn (callsOf c now₁ now₂ req s) = [] := by
  rw [(reconcile_proceeds c now₁ now₂ req s hfetch hname hlookup).1]
  exact deletesIn_map_create _

theorem createUntilFailure_all_ok {σ : Type} (c : Client σ) (objs : List Object) :
    ∀ s : σ, (∀ r ∈ (createUntilFailure c s objs).1.1, r.2 = none) →
      (createUntilFailure c s objs).1.1 = objs.map (fun o => (o, none)) ∧
      (createUntilFailure c s objs).1.2 = none := by
  induction objs with
  | nil => intro s _; exact ⟨rfl, rfl⟩
  | cons o rest ih =>
    intro s h
    by_cases hc : (c.Create s o).1 = none
    · have hstep : ∀ r ∈ (createUntilFailure c (c.Create s o).2 rest).1.1, r.2 = none := by
        intro r hr
        apply h
        simp [createUntilFailure, hc, hr]
      simp [createUntilFailure, hc, ih _ hstep]
    · exfalso
      apply hc
      have := h (o, (c.Create s o).1) (by simp [createUntilFailure, hc])
      exact this

theorem no_creates_when_creator_found {σ : Type} (c : Client σ) (now₁ now₂ : Int)
    (req : Request) (s : σ) (h : creatorLookupErr c req s = none) :
    createResultsIn (callsOf c now₁ now₂ req s) = [] := by
  unfold creatorLookupErr creatorKey at h
  unfold callsOf Reconcile
  simp only [traced]
  split_ifs <;> simp [createResultsIn]

theorem string_append_right_inj (a b c : String) : a ++ b = a ++ c ↔ b = c := by
  constructor
  · intro h
    have hd := congrArg String.data h
    rw [String.data_append, String.data_append] at hd
    exact String.ext (List.append_cancel_left hd)
  · rintro rfl
    rfl

theorem source_ne_newPvcName (t : Int) (src : String) : src ≠ newPvcName t src := by
  intro h
  have hl := congrArg List.length (congrArg String.data h)
  rw [newPvcName_data] at hl
  simp only [List.length_append, List.length_cons] at hl
  have : "sugar-snapshot-pvc-".data.length = 19 := by decide
  omega

/-- C1: when the request object is fetched with a non-empty name, the lookup of the pod
"snapshot-creator" returns an error and every create the pass issues succeeds, the pass
issues exactly three creates, volume, claim, worker in that order, and returns nil. The
claim is bound to the volume by name, the worker is named "snapshot-creator" and has
exactly two volumes, for the source claim and the generated claim, mounted at
/tmp/source and /tmp/dest. -/
theorem reconcile_creates_volume_claim_worker {σ : Type} (c : Client σ) (now₁ now₂ : Int)
    (req : Request) (s : σ) (snapshot : Sugarshop)
    (hfetch : fetched c req s = (snapshot, none))
    (hname : snapshot.ObjectMeta.Name ≠ "")
    (hlookup : creatorLookupErr c req s ≠ none)
    (hcreates : ∀ r ∈ createResultsIn (callsOf c now₁ now₂ req s), r.2 = none) :
    ∃ volume claim worker,
      createsIn (callsOf c now₁ now₂ req s) =
        [.persistentVolume volume, .persistentVolumeClaim claim, .pod worker] ∧
      errorOf c now₁ now₂ req s = none ∧
      volume.ObjectMeta.Name = newPvName now₁ snapshot.Spec.SourceVolumeName ∧
      claim.ObjectMeta.Name = newPvcName now₂ snapshot.Spec.SourceClaimName ∧
      claim.Spec.VolumeName = volume.ObjectMeta.Name ∧
      worker.ObjectMeta.Name = "snapshot-creator" ∧
      volumeClaims worker = [some snapshot.Spec.SourceClaimName, some claim.ObjectMeta.Name] ∧
      claimsMountedAt worker "/tmp/source" = [snapshot.Spec.SourceClaimName] ∧
      claimsMountedAt worker "/tmp/dest" = [claim.ObjectMeta.Name] := by
  have hf2 : (fetched c req s).2 = none := by rw [hfetch]
  have hf1 : (fetched c req s).1 = snapshot := by rw [hfetch]
  have hn : (fetched c req s).1.ObjectMeta.Name ≠ "" := by rw [hf1]; exact hname
  have hres := reconcile_proceeds_creates c now₁ now₂ req s hf2 hn hlookup
  have herr := (reconcile_proceeds c now₁ now₂ req s hf2 hn hlookup).2.1
  rw [hres] at hcreates
  obtain ⟨hall, hnone⟩ := createUntilFailure_all_ok c _ _ hcreates
  refine ⟨newPersistentVol req snapshot (newPvName now₁ snapshot.Spec.SourceVolumeName),
    newPersistentVolClaim req (newPvName now₁ snapshot.Spec.SourceVolumeName)
      (newPvcName now₂ snapshot.Spec.SourceClaimName),
    snapshotCreatorPod req snapshot (newPvcName now₂ snapshot.Spec.SourceClaimName),
    ?_, ?_, rfl, rfl, rfl, rfl, rfl, ?_, ?_⟩
  · rw [createsIn, hres, hall, hf1]
    simp [planned]
  · rw [herr, hnone]
  · have h1 := source_ne_newPvcName now₂ snapshot.Spec.SourceClaimName
    simp [claimsMountedAt, snapshotCreatorPod, string_append_right_inj, h1, Ne.symm h1]
  · have h1 := source_ne_newPvcName now₂ snapshot.Spec.SourceClaimName
    simp [claimsMountedAt, snapshotCreatorPod, newPersistentVolClaim, string_append_right_inj, h1,
      Ne.symm h1]

theorem reconcile_creates_volume_claim_worker_witness :
    fetched (storeClient acceptAll) scenarioRequest scenarioStore = (scenarioShop, none) ∧
    scenarioShop.ObjectMeta.Name ≠ "" ∧
    creatorLookupErr (storeClient acceptAll) scenarioRequest scenarioStore ≠ none ∧
    (∀ r ∈ createResultsIn
        (callsOf (storeClient acceptAll) 1700000000 1700000000 scenarioRequest scenarioStore),
      r.2 = none) ∧
    ∃ volume claim worker,
      createsIn
          (callsOf (storeClient acceptAll) 1700000000 1700000000 scenarioRequest scenarioStore) =
        [.persistentVolume volume, .persistentVolumeClaim claim, .pod worker] ∧
      errorOf (storeClient acceptAll) 1700000000 1700000000 scenarioRequest scenarioStore = none ∧
      volume.ObjectMeta.Name = newPvName 1700000000 scenarioShop.Spec.SourceVolumeName ∧
      claim.ObjectMeta.Name = newPvcName 1700000000 scenarioShop.Spec.SourceClaimName ∧
      claim.Spec.VolumeName = volume.ObjectMeta.Name ∧
      worker.ObjectMeta.Name = "snapshot-creator" ∧
      volumeClaims worker =
        [some scenarioShop.Spec.SourceClaimName, some claim.ObjectMeta.Name] ∧
      claimsMountedAt worker "/tmp/source" = [scenarioShop.Spec.SourceClaimName] ∧
      claimsMountedAt worker "/tmp/dest" = [claim.ObjectMeta.Name] :=
  ⟨by decide, by decide, by decide, by decide,
    reconcile_creates_volume_claim_worker (storeClient acceptAll) 1700000000 1700000000
      scenarioRequest scenarioStore scenarioShop (by decide) (by decide) (by decide) (by decide)⟩

/-- When the fetch of the request object fails, or leaves the name empty, the pass makes
no further call and returns the error of the fetch, nil included. -/
theorem reconcile_aborts_on_unreadable {σ : Type} (c : Client σ) (now₁ now₂ : Int)
    (req : Request) (s : σ)
    (h : (fetched c req s).2 ≠ none ∨ (fetched c req s).1.ObjectMeta.Name = "") :
    callsOf c now₁ now₂ req s =
      [Call.GetSugarshop req.NamespacedName (fetched c req s).1 (fetched c req s).2]
    ∧ errorOf c now₁ now₂ req s = (fetched c req s).2
    ∧ worldAfter c now₁ now₂ req s = (c.GetSugarshop s req.NamespacedName).2 := by
  have h' : (fetched c req s).2 ≠ none ∨ (fetched c req s).1.ObjectMeta.Name.length = 0 :=
    h.imp id fun hn => (string_length_eq_zero _).mpr hn
  unfold fetched at h'
  unfold callsOf errorOf worldAfter Reconcile
  simp only [traced, fetched]
  rw [if_pos h']
  simp

/-- When the request object is read and the lookup of the pod "snapshot-creator"
succeeds, the pass makes no further call and returns the error of the lookup, nil. -/
theorem reconcile_aborts_on_creator {σ : Type} (c : Client σ) (now₁ now₂ : Int)
    (req : Request) (s : σ) (hfetch : (fetched c req s).2 = none)
    (hname : (fetched c req s).1.ObjectMeta.Name ≠ "")
    (hlookup : creatorLookupErr c req s = none) :
    createResultsIn (callsOf c now₁ now₂ req s) = []
    ∧ errorOf c now₁ now₂ req s = none
    ∧ worldAfter c now₁ now₂ req s = worldAfterLookups c req s := by
  have hlen : ¬ (fetched c req s).1.ObjectMeta.Name.length = 0 :=
    fun h => hname ((string_length_eq_zero _).mp h)
  unfold fetched at hfetch hlen
  unfold creatorLookupErr creatorKey at hlookup
  unfold callsOf errorOf worldAfter Reconcile
  simp only [traced, worldAfterLookups, creatorKey]
  split_ifs <;> simp_all [createResultsIn]

theorem createUntilFailure_shape {σ : Type} (c : Client σ) (o : Object) (objs : List Object) :
    ∀ s : σ,
      ((createUntilFailure c s (o :: objs)).1.1.map Prod.fst <+: o :: objs) ∧
      (∀ r ∈ (createUntilFailure c s (o :: objs)).1.1.dropLast, r.2 = none) ∧
      (createUntilFailure c s (o :: objs)).1.1.getLast?.map Prod.snd
        = some (createUntilFailure c s (o :: objs)).1.2 ∧
      ((createUntilFailure c s (o :: objs)).1.2 = none →
        (createUntilFailure c s (o :: objs)).1.1.map Prod.fst = o :: objs) := by
  induction objs generalizing o with
  | nil =>
    intro s
    by_cases hc : (c.Create s o).1 = none <;> simp [createUntilFailure, hc]
  | cons o' rest ih =>
    intro s
    by_cases hc : (c.Create s o).1 = none
    · obtain ⟨h1, h2, h3, h4⟩ := ih o' (c.Create s o).2
      have hne : (createUntilFailure c (c.Create s o).2 (o' :: rest)).1.1 ≠ [] := by
        intro hnil
        rw [hnil] at h3
        simp at h3
      obtain ⟨x, xs, hx⟩ := List.exists_cons_of_ne_nil hne
      have hstep : (createUntilFailure c s (o :: o' :: rest)) =
          (((o, none) :: (createUntilFailure c (c.Create s o).2 (o' :: rest)).1.1,
            (createUntilFailure c (c.Create s o).2 (o' :: rest)).1.2),
            (createUntilFailure c (c.Create s o).2 (o' :: rest)).2) := by
        rw [createUntilFailure]
        simp [hc]
      rw [hstep]
      refine ⟨?_, ?_, ?_, ?_⟩
      · simpa using (List.prefix_cons_inj o).mpr h1
      · intro r hr
        simp only [hx, List.dropLast_cons₂, List.mem_cons] at hr
        rcases hr with rfl | hr
        · rfl
        · exact h2 r (by rw [hx]; exact hr)
      · simp only [hx, List.getLast?_cons_cons]
        rw [← hx]
        exact h3
      · intro hnone
        simp [h4 hnone]
    · simp [createUntilFailure, hc]

/-- C2, the code at the failing input: the request object is fetched with the name
"snap", the lookup of the pod "snapshot-creator" in its namespace succeeds, and
`Reconcile` returns a nil error, where the claim has it return a non-nil one. -/
theorem reconcile_returns_nil_when_creator_found :
    fetched (storeClient acceptAll) scenarioRequest busyStore = (scenarioShop, none) ∧
    scenarioShop.ObjectMeta.Name = "snap" ∧
    creatorLookupErr (storeClient acceptAll) scenarioRequest busyStore = none ∧
    errorOf (storeClient acceptAll) 1700000000 1700000000 scenarioRequest busyStore = none := by
  decide

/-- C3: whenever the lookup of the pod "snapshot-creator" in the namespace of the
request succeeds, the pass issues no create, whatever the request is. -/
theorem reconcile_creates_nothing_when_creator_found {σ : Type} (c : Client σ)
    (now₁ now₂ : Int) (req : Request) (s : σ) (h : creatorLookupErr c req s = none) :
    createsIn (callsOf c now₁ now₂ req s) = [] := by
  rw [createsIn, no_creates_when_creator_found c now₁ now₂ req s h]
  rfl

theorem reconcile_creates_nothing_when_creator_found_witness :
    creatorLookupErr (storeClient acceptAll) scenarioRequest busyStore = none ∧
    createsIn (callsOf (storeClient acceptAll) 1700000000 1700000000 scenarioRequest busyStore)
      = [] :=
  ⟨by decide,
    reconcile_creates_nothing_when_creator_found (storeClient acceptAll) 1700000000 1700000000
      scenarioRequest busyStore (by decide)⟩

/-- C5: once the two lookups let the pass proceed, the creates it issues are a prefix of
volume, claim, worker; every create before the last one issued succeeded, the error
returned is the error of the last one issued, and a nil return means all three were
issued; no delete is issued. In particular, when the volume is created and the creation
of the claim fails, the creates issued are the volume and the claim, the error of the
claim is returned, and nothing is deleted. -/
theorem reconcile_fail_fast_no_rollback {σ : Type} (c : Client σ) (now₁ now₂ : Int)
    (req : Request) (s : σ) (snapshot : Sugarshop)
    (hfetch : fetched c req s = (snapshot, none))
    (hname : snapshot.ObjectMeta.Name ≠ "")
    (hlookup : creatorLookupErr c req s ≠ none) :
    createsIn (callsOf c now₁ now₂ req s) <+: planned req snapshot now₁ now₂ ∧
    (∀ r ∈ (createResultsIn (callsOf c now₁ now₂ req s)).dropLast, r.2 = none) ∧
    (createResultsIn (callsOf c now₁ now₂ req s)).getLast?.map Prod.snd
      = some (errorOf c now₁ now₂ req s) ∧
    (errorOf c now₁ now₂ req s = none →
      createsIn (callsOf c now₁ now₂ req s) = planned req snapshot now₁ now₂) ∧
    deletesIn (callsOf c now₁ now₂ req s) = [] ∧
    (∀ e : Error,
      (c.Create (worldAfterLookups c req s)
        (.persistentVolume
          (newPersistentVol req snapshot (newPvName now₁ snapshot.Spec.SourceVolumeName)))).1
        = none →
      (c.Create
        (c.Create (worldAfterLookups c req s)
          (.persistentVolume
            (newPersistentVol req snapshot (newPvName now₁ snapshot.Spec.SourceVolumeName)))).2
        (.persistentVolumeClaim
          (newPersistentVolClaim req (newPvName now₁ snapshot.Spec.SourceVolumeName)
            (newPvcName now₂ snapshot.Spec.SourceClaimName)))).1 = some e →
      createsIn (callsOf c now₁ now₂ req s) =
        [ .persistentVolume
            (newPersistentVol req snapshot (newPvName now₁ snapshot.Spec.SourceVolumeName)),
          .persistentVolumeClaim
            (newPersistentVolClaim req (newPvName now₁ snapshot.Spec.SourceVolumeName)
              (newPvcName now₂ snapshot.Spec.SourceClaimName)) ] ∧
      errorOf c now₁ now₂ req s = some e) := by
  have hf2 : (fetched c req s).2 = none := by rw [hfetch]
  have hf1 : (fetched c req s).1 = snapshot := by rw [hfetch]
  have hn : (fetched c req s).1.ObjectMeta.Name ≠ "" := by rw [hf1]; exact hname
  have hres := reconcile_proceeds_creates c now₁ now₂ req s hf2 hn hlookup
  have herr := (reconcile_proceeds c now₁ now₂ req s hf2 hn hlookup).2.1
  have hdel := reconcile_proceeds_deletes c now₁ now₂ req s hf2 hn hlookup
  rw [hf1] at hres herr
  obtain ⟨h1, h2, h3, h4⟩ := createUntilFailure_shape c _ _ (worldAfterLookups c req s)
  rw [createsIn, hres, herr]
  refine ⟨h1, h2, h3, h4, hdel, ?_⟩
  intro e hpv hpvc
  simp [planned, createUntilFailure, hpv, hpvc]

theorem reconcile_fail_fast_no_rollback_witness :
    fetched (storeClient rejectClaims) scenarioRequest scenarioStore = (scenarioShop, none) ∧
    scenarioShop.ObjectMeta.Name ≠ "" ∧
    creatorLookupErr (storeClient rejectClaims) scenarioRequest scenarioStore ≠ none ∧
    createsIn (callsOf (storeClient rejectClaims) 1700000000 1700000000 scenarioRequest
        scenarioStore)
      = [ .persistentVolume
            (newPersistentVol scenarioRequest scenarioShop
              (newPvName 1700000000 scenarioShop.Spec.SourceVolumeName)),
          .persistentVolumeClaim
            (newPersistentVolClaim scenarioRequest
              (newPvName 1700000000 scenarioShop.Spec.SourceVolumeName)
              (newPvcName 1700000000 scenarioShop.Spec.SourceClaimName)) ] ∧
    errorOf (storeClient rejectClaims) 1700000000 1700000000 scenarioRequest scenarioStore
      = some { msg := "claim refused" } ∧
    deletesIn (callsOf (storeClient rejectClaims) 1700000000 1700000000 scenarioRequest
        scenarioStore) = [] ∧
    Object.persistentVolume
        (newPersistentVol scenarioRequest scenarioShop
          (newPvName 1700000000 scenarioShop.Spec.SourceVolumeName)) ∈
      worldAfter (storeClient rejectClaims) 1700000000 1700000000 scenarioRequest scenarioStore :=
  have h := reconcile_fail_fast_no_rollback (storeClient rejectClaims) 1700000000 1700000000
    scenarioRequest scenarioStore scenarioShop (by decide) (by decide) (by decide)
  have hpart := h.2.2.2.2.2 { msg := "claim refused" } (by decide) (by decide)
  ⟨by decide, by decide, by decide, hpart.1, hpart.2, h.2.2.2.2.1, by decide⟩

/-- C8, as the claim states it, fails: the request object stored in "ns1" has the spec
field `namespace` set to "elsewhere", and the three objects the pass creates carry the
namespace "ns1" of the request key. -/
theorem created_objects_ignore_spec_namespace :
    fetched (storeClient acceptAll) scenarioRequest [.sugarshop strayShop] = (strayShop, none) ∧
    strayShop.Spec.Namespace = "elsewhere" ∧
    (createsIn (callsOf (storeClient acceptAll) 1700000000 1700000000 scenarioRequest
        [.sugarshop strayShop])).map (fun o => o.meta.Namespace) = ["ns1", "ns1", "ns1"] := by
  decide

/-- C8, amended: every object a pass creates carries the namespace of the request key
(`req.Namespace`), for every request and every client; and the spec field `namespace`
of the request object is not read: overwriting it with any value in the object the
fetch returns changes neither what `Reconcile` returns, nor the world it leaves, nor
the objects it creates. -/
theorem created_objects_in_request_namespace {σ : Type} (c : Client σ) (now₁ now₂ : Int)
    (req : Request) (s : σ) (ns : String) :
    (∀ o ∈ createsIn (callsOf c now₁ now₂ req s),
      o.meta.Namespace = req.NamespacedName.Namespace) ∧
    Reconcile (withSpecNamespace ns c) now₁ now₂ req s = Reconcile c now₁ now₂ req s ∧
    createsIn (callsOf (withSpecNamespace ns c) now₁ now₂ req s)
      = createsIn (callsOf c now₁ now₂ req s) := by
  refine ⟨?_, ?_, ?_⟩
  · unfold callsOf Reconcile
    simp only [traced]
    split_ifs <;>
      simp [createsIn, createResultsIn, Object.meta, newPersistentVol, newPersistentVolClaim,
        snapshotCreatorPod]
  · unfold Reconcile
    simp only [withSpecNamespace, newPersistentVol, snapshotCreatorPod]
  · unfold callsOf Reconcile
    simp only [traced, withSpecNamespace, newPersistentVol, snapshotCreatorPod]
    split_ifs <;> simp [createsIn, createResultsIn]

theorem created_objects_in_request_namespace_witness :
    (Object.pod (snapshotCreatorPod scenarioRequest strayShop
        (newPvcName 1700000000 "data-claim")) ∈
      createsIn (callsOf (storeClient acceptAll) 1700000000 1700000000 scenarioRequest
        [.sugarshop strayShop])) ∧
    (Object.pod (snapshotCreatorPod scenarioRequest strayShop
        (newPvcName 1700000000 "data-claim"))).meta.Namespace
      = scenarioRequest.NamespacedName.Namespace ∧
    fetched (withSpecNamespace "ns1" (storeClient acceptAll)) scenarioRequest
        [.sugarshop strayShop] = (scenarioShop, none) ∧
    fetched (storeClient acceptAll) scenarioRequest [.sugarshop strayShop]
      = (strayShop, none) ∧
    Reconcile (withSpecNamespace "ns1" (storeClient acceptAll)) 1700000000 1700000000
        scenarioRequest [.sugarshop strayShop]
      = Reconcile (storeClient acceptAll) 1700000000 1700000000 scenarioRequest
        [.sugarshop strayShop] ∧
    createsIn (callsOf (withSpecNamespace "ns1" (storeClient acceptAll)) 1700000000 1700000000
        scenarioRequest [.sugarshop strayShop])
      = createsIn (callsOf (storeClient acceptAll) 1700000000 1700000000 scenarioRequest
        [.sugarshop strayShop]) :=
  have h := created_objects_in_request_namespace (storeClient acceptAll) 1700000000 1700000000
    scenarioRequest [.sugarshop strayShop] "ns1"
  ⟨by decide, h.1 _ (by decide), by decide, by decide, h.2.1, h.2.2⟩

/-- C9, the code at the failing input: the fetch succeeds with an object whose name is
empty; the pass stops after the fetch and issues no create, as the claim says, but it
returns a nil error, where the claim has it return a non-nil one. -/
theorem reconcile_returns_nil_for_nameless_request :
    fetched (storeClient acceptAll) namelessRequest [.sugarshop namelessShop]
      = (namelessShop, none) ∧
    namelessShop.ObjectMeta.Name = "" ∧
    callsOf (storeClient acceptAll) 1700000000 1700000000 namelessRequest
        [.sugarshop namelessShop]
      = [Call.GetSugarshop namelessRequest.NamespacedName namelessShop none] ∧
    errorOf (storeClient acceptAll) 1700000000 1700000000 namelessRequest
        [.sugarshop namelessShop] = none := by
  decide

/-! ## Passes over the store -/

theorem storeClient_GetSugarshop_world (rejects : Store → Object → Option Error) (s : Store)
    (key : NamespacedName) : ((storeClient rejects).GetSugarshop s key).2 = s := by
  simp only [storeClient]
  split <;> rfl

theorem storeClient_GetPod_world (rejects : Store → Object → Option Error) (s : Store)
    (key : NamespacedName) : ((storeClient rejects).GetPod s key).2 = s := by
  simp only [storeClient]
  split <;> rfl

theorem storeClient_worldAfterLookups (rejects : Store → Object → Option Error) (s : Store)
    (req : Request) : worldAfterLookups (storeClient rejects) req s = s := by
  rw [worldAfterLookups, storeClient_GetPod_world, storeClient_GetSugarshop_world]

theorem hasKey_pod_is_pod (key : NamespacedName) (o : Object)
    (h : Object.hasKey .Pod key o = true) : ∃ p, o = .pod p := by
  cases o <;> simp [Object.hasKey, Object.kind] at h
  exact ⟨_, rfl⟩

/-- Over the store, the lookup of the worker succeeds as soon as a pod with its name
and namespace is present. -/
theorem storeClient_lookup_succeeds (rejects : Store → Object → Option Error) (req : Request)
    (s : Store) (o : Object) (ho : o ∈ s) (hk : Object.hasKey .Pod (creatorKey req) o = true) :
    creatorLookupErr (storeClient rejects) req s = none := by
  rw [creatorLookupErr, storeClient_GetSugarshop_world]
  simp only [storeClient]
  cases hfind : s.find? (Object.hasKey .Pod (creatorKey req)) with
  | none =>
    have := List.find?_eq_none.mp hfind o ho
    exact absurd hk this
  | some x =>
    obtain ⟨p, rfl⟩ := hasKey_pod_is_pod _ x (List.find?_some hfind)
    rfl

/-- Over the store, a failing lookup of the worker means no pod with its name and
namespace is present. -/
theorem storeClient_lookup_fails (rejects : Store → Object → Option Error) (req : Request)
    (s : Store) (h : creatorLookupErr (storeClient rejects) req s ≠ none) :
    sentinelCount req.NamespacedName.Namespace s = 0 := by
  rw [sentinelCount, List.countP_eq_zero]
  intro o ho hk
  exact h (storeClient_lookup_succeeds rejects req s o ho hk)

theorem storeClient_createUntilFailure_world (rejects : Store → Object → Option Error)
    (objs : List Object) :
    ∀ s : Store, (createUntilFailure (storeClient rejects) s objs).2
      = s ++ accepted (createUntilFailure (storeClient rejects) s objs).1.1 := by
  induction objs with
  | nil => intro s; simp [createUntilFailure, accepted]
  | cons o rest ih =>
    intro s
    cases hr : rejects s o with
    | some e =>
      have h1 : ((storeClient rejects).Create s o) = (some e, s) := by simp [storeClient, hr]
      simp [createUntilFailure, h1, accepted]
    | none =>
      have h1 : ((storeClient rejects).Create s o) = (none, s ++ [o]) := by
        simp [storeClient, hr]
      have h2 := ih (s ++ [o])
      simp only [accepted] at h2
      simp [createUntilFailure, h1, accepted, h2]

/-- The store a pass leaves is the store it started in followed by the objects whose
creation was accepted. -/
theorem runPass_eq_append (rejects : Store → Object → Option Error) (s : Store) (p : Pass) :
    runPass rejects s p =
      s ++ accepted (createResultsIn (callsOf (storeClient rejects) p.now₁ p.now₂ p.req s)) := by
  unfold runPass
  by_cases hread : (fetched (storeClient rejects) p.req s).2 = none ∧
      (fetched (storeClient rejects) p.req s).1.ObjectMeta.Name ≠ ""
  · by_cases hlookup : creatorLookupErr (storeClient rejects) p.req s = none
    · obtain ⟨h1, -, h3⟩ :=
        reconcile_aborts_on_creator (storeClient rejects) p.now₁ p.now₂ p.req s hread.1 hread.2
          hlookup
      rw [h1, h3, storeClient_worldAfterLookups]
      simp [accepted]
    · rw [reconcile_proceeds_creates _ _ _ _ _ hread.1 hread.2 hlookup,
        (reconcile_proceeds _ p.now₁ p.now₂ _ _ hread.1 hread.2 hlookup).2.2,
        storeClient_createUntilFailure_world, storeClient_worldAfterLookups]
  · have hbad : (fetched (storeClient rejects) p.req s).2 ≠ none ∨
        (fetched (storeClient rejects) p.req s).1.ObjectMeta.Name = "" := by
      by_cases h : (fetched (storeClient rejects) p.req s).2 = none
      · right
        by_contra hne
        exact hread ⟨h, hne⟩
      · left
        exact h
    obtain ⟨h1, -, h3⟩ :=
      reconcile_aborts_on_unreadable (storeClient rejects) p.now₁ p.now₂ p.req s hbad
    rw [h1, h3, storeClient_GetSugarshop_world]
    simp [accepted, createResultsIn]

theorem runPasses_mono (rejects : Store → Object → Option Error) (ps : List Pass) :
    ∀ (s : Store) (o : Object), o ∈ s → o ∈ runPasses rejects s ps := by
  induction ps with
  | nil => intro s o ho; exact ho
  | cons p rest ih =>
    intro s o ho
    simp only [runPasses, List.foldl_cons]
    apply ih
    rw [runPass_eq_append]
    exact List.mem_append_left _ ho

/-- A pass that completes all three creates leaves its worker in the store. -/
theorem completesProvisioning_leaves_worker (rejects : Store → Object → Option Error)
    (s : Store) (p : Pass) (h : completesProvisioning rejects s p) :
    ∃ o ∈ runPass rejects s p, Object.hasKey .Pod (creatorKey p.req) o = true := by
  unfold completesProvisioning at h
  by_cases hread : (fetched (storeClient rejects) p.req s).2 = none ∧
      (fetched (storeClient rejects) p.req s).1.ObjectMeta.Name ≠ ""
  · by_cases hlookup : creatorLookupErr (storeClient rejects) p.req s = none
    · rw [no_creates_when_creator_found _ _ _ _ _ hlookup] at h
      simp at h
    · have hres := reconcile_proceeds_creates _ p.now₁ p.now₂ _ _ hread.1 hread.2 hlookup
      have hall : ∀ r ∈ createResultsIn
          (callsOf (storeClient rejects) p.now₁ p.now₂ p.req s), r.2 = none := by
        intro r hr
        have : r.2 ∈ (createResultsIn
            (callsOf (storeClient rejects) p.now₁ p.now₂ p.req s)).map Prod.snd :=
          List.mem_map_of_mem _ hr
        rw [h] at this
        simpa using this
      have hall' := hall
      rw [hres] at hall'
      obtain ⟨hshape, -⟩ := createUntilFailure_all_ok _ _ _ hall'
      refine ⟨.pod (snapshotCreatorPod p.req (fetched (storeClient rejects) p.req s).1
        (newPvcName p.now₂ (fetched (storeClient rejects) p.req s).1.Spec.SourceClaimName)),
        ?_, ?_⟩
      · rw [runPass_eq_append, hres, hshape]
        simp [accepted, planned]
      · simp [Object.hasKey, Object.kind, Object.meta, snapshotCreatorPod, creatorKey]
  · have hbad : (fetched (storeClient rejects) p.req s).2 ≠ none ∨
        (fetched (storeClient rejects) p.req s).1.ObjectMeta.Name = "" := by
      by_cases h' : (fetched (storeClient rejects) p.req s).2 = none
      · right
        by_contra hne
        exact hread ⟨h', hne⟩
      · left
        exact h'
    rw [(reconcile_aborts_on_unreadable _ p.now₁ p.now₂ _ _ hbad).1] at h
    simp [createResultsIn] at h

theorem accepted_sublist (results : List (Object × Option Error)) :
    (accepted results).Sublist (results.map Prod.fst) := by
  unfold accepted
  exact (List.filter_sublist _).map _

theorem sentinelCount_planned (ns : String) (req : Request) (snapshot : Sugarshop)
    (now₁ now₂ : Int) :
    sentinelCount ns (planned req snapshot now₁ now₂)
      = if req.NamespacedName.Namespace = ns then 1 else 0 := by
  simp [sentinelCount, planned, List.countP_cons, Object.hasKey, Object.kind, Object.meta,
    snapshotCreatorPod]

/-- A pass keeps the number of workers named "snapshot-creator" in each namespace at
most one. -/
theorem runPass_sentinel (rejects : Store → Object → Option Error) (s : Store) (p : Pass)
    (h : ∀ ns, sentinelCount ns s ≤ 1) : ∀ ns, sentinelCount ns (runPass rejects s p) ≤ 1 := by
  intro ns
  rw [runPass_eq_append]
  unfold sentinelCount
  rw [List.countP_append]
  by_cases hgo : ((fetched (storeClient rejects) p.req s).2 = none ∧
      (fetched (storeClient rejects) p.req s).1.ObjectMeta.Name ≠ "") ∧
      creatorLookupErr (storeClient rejects) p.req s ≠ none
  · obtain ⟨⟨hf, hn⟩, hlookup⟩ := hgo
    have hres := reconcile_proceeds_creates _ p.now₁ p.now₂ _ _ hf hn hlookup
    have hpre : (createUntilFailure (storeClient rejects)
        (worldAfterLookups (storeClient rejects) p.req s)
        (planned p.req (fetched (storeClient rejects) p.req s).1 p.now₁ p.now₂)).1.1.map Prod.fst
        <+: planned p.req (fetched (storeClient rejects) p.req s).1 p.now₁ p.now₂ :=
      (createUntilFailure_shape (storeClient rejects) _ _
        (worldAfterLookups (storeClient rejects) p.req s)).1
    have hsub : (accepted (createResultsIn
        (callsOf (storeClient rejects) p.now₁ p.now₂ p.req s))).Sublist
        (planned p.req (fetched (storeClient rejects) p.req s).1 p.now₁ p.now₂) := by
      rw [hres]
      exact (accepted_sublist _).trans hpre.sublist
    have hle := hsub.countP_le
      (Object.hasKey .Pod { Name := "snapshot-creator", Namespace := ns })
    have hpl := sentinelCount_planned ns p.req (fetched (storeClient rejects) p.req s).1
      p.now₁ p.now₂
    unfold sentinelCount at hpl
    rw [hpl] at hle
    by_cases hns : p.req.NamespacedName.Namespace = ns
    · have h0 := storeClient_lookup_fails rejects p.req s hlookup
      rw [hns] at h0
      unfold sentinelCount at h0
      rw [if_pos hns] at hle
      omega
    · rw [if_neg hns] at hle
      have := h ns
      unfold sentinelCount at this
      omega
  · have hnil : createResultsIn (callsOf (storeClient rejects) p.now₁ p.now₂ p.req s) = [] := by
      by_cases hread : (fetched (storeClient rejects) p.req s).2 = none ∧
          (fetched (storeClient rejects) p.req s).1.ObjectMeta.Name ≠ ""
      · have hl : creatorLookupErr (storeClient rejects) p.req s = none := by
          by_contra hne
          exact hgo ⟨hread, hne⟩
        exact no_creates_when_creator_found _ _ _ _ _ hl
      · have hbad : (fetched (storeClient rejects) p.req s).2 ≠ none ∨
            (fetched (storeClient rejects) p.req s).1.ObjectMeta.Name = "" := by
          by_cases h' : (fetched (storeClient rejects) p.req s).2 = none
          · right
            by_contra hne
            exact hread ⟨h', hne⟩
          · left
            exact h'
        rw [(reconcile_aborts_on_unreadable _ p.now₁ p.now₂ _ _ hbad).1]
        simp [createResultsIn]
    rw [hnil]
    have := h ns
    unfold sentinelCount at this
    simpa [accepted] using this

theorem runPasses_sentinel (rejects : Store → Object → Option Error) (ps : List Pass) :
    ∀ s : Store, (∀ ns, sentinelCount ns s ≤ 1) →
      ∀ ns, sentinelCount ns (runPasses rejects s ps) ≤ 1 := by
  induction ps with
  | nil => intro s h; exact h
  | cons p rest ih =>
    intro s h
    simp only [runPasses, List.foldl_cons]
    exact ih _ (runPass_sentinel rejects s p h)

/-- C10: over the store, with passes run one after another from a store that holds at
most one pod named "snapshot-creator" per namespace: after a pass that completes all
three creates, every later pass for the same namespace issues no create; and every
store the passes reach holds at most one pod named "snapshot-creator" per namespace.
The server may accept every create or turn some down. -/
theorem sentinel_worker_created_once (rejects : Store → Object → Option Error) (s₀ : Store)
    (h₀ : ∀ ns, sentinelCount ns s₀ ≤ 1) :
    (∀ (ps : List Pass) (p : Pass) (qs : List Pass) (q : Pass),
      completesProvisioning rejects (runPasses rejects s₀ ps) p →
      q.req.NamespacedName.Namespace = p.req.NamespacedName.Namespace →
      passCreates rejects (runPasses rejects s₀ (ps ++ p :: qs)) q = []) ∧
    (∀ (ps : List Pass) (ns : String), sentinelCount ns (runPasses rejects s₀ ps) ≤ 1) := by
  refine ⟨?_, fun ps => runPasses_sentinel rejects ps s₀ h₀⟩
  intro ps p qs q hdone hns
  obtain ⟨o, ho, hk⟩ := completesProvisioning_leaves_worker rejects _ p hdone
  have hmem : o ∈ runPasses rejects s₀ (ps ++ p :: qs) := by
    simp only [runPasses, List.foldl_append, List.foldl_cons]
    exact runPasses_mono rejects qs _ o ho
  have hkey : creatorKey q.req = creatorKey p.req := by
    simp [creatorKey, hns]
  have hlookup := storeClient_lookup_succeeds rejects q.req _ o hmem (hkey ▸ hk)
  rw [passCreates, createsIn, no_creates_when_creator_found _ _ _ _ _ hlookup]
  rfl

theorem sentinel_worker_created_once_witness :
    (∀ ns, sentinelCount ns scenarioStore ≤ 1) ∧
    completesProvisioning acceptAll (runPasses acceptAll scenarioStore []) scenarioPass ∧
    passCreates acceptAll (runPasses acceptAll scenarioStore ([] ++ scenarioPass :: []))
      scenarioPass = [] ∧
    sentinelCount "ns1" (runPasses acceptAll scenarioStore [scenarioPass, scenarioPass]) ≤ 1 :=
  have h₀ : ∀ ns, sentinelCount ns scenarioStore ≤ 1 := fun ns => by
    simp [sentinelCount, scenarioStore, Object.hasKey, Object.kind]
  have h := sentinel_worker_created_once acceptAll scenarioStore h₀
  have hdone : completesProvisioning acceptAll (runPasses acceptAll scenarioStore [])
      scenarioPass := by
    unfold completesProvisioning
    decide
  ⟨h₀, hdone, h.1 [] scenarioPass [] scenarioPass hdone rfl,
    h.2 [scenarioPass, scenarioPass] "ns1"⟩

end Controllers
